import Mathlib

/-!
Verification of the order-reconciliation and grid-decision core of the
pylighter grid-trading bots, following `src/grid_strategy.py`
(`SimplifiedGridBot`), `src/pylighter/order_manager.py`
(`OrderTracker` / `OrderSyncManager`), `src/pylighter/market_utils.py`
and `src/pylighter/client.py`.

Prices, quantities and timestamps are modelled as rationals; the
in-memory order tracker (a Python dict keyed by order id) is modelled
as an association list with distinct keys; the outcome of an awaited
API call is modelled explicitly (raised exception / non-dict response /
dict response with an optional code and a list of orders).
-/

namespace Pylighter

/-- Order side, `'buy'` / `'sell'` in the source. -/
inductive Side where
  | buy
  | sell
deriving DecidableEq, Repr

/-- Position type, `'long'` / `'short'` in the source. -/
inductive PosType where
  | long
  | short
deriving DecidableEq, Repr

/-- The two per-symbol position sizes of `SimplifiedGridBot`
(`self.long_position`, `self.short_position`). -/
structure Positions where
  long_position : ℚ
  short_position : ℚ
deriving DecidableEq, Repr

/-- Initial positions set in `SimplifiedGridBot.__init__`:
`self.long_position = 0`, `self.short_position = 0`. -/
def initialPositions : Positions := ⟨0, 0⟩

/-- One order as reported by the exchange (REST `account_active_orders`
response entry or an entry of the account WebSocket `orders` payload):
`order_id` (already passed through `str(...)`), `status`, `remaining_base_amount`,
`is_ask`, `price`. -/
structure ApiOrder where
  order_id : String
  status : String
  remaining_base_amount : ℚ
  is_ask : Bool
  price : ℚ
deriving DecidableEq, Repr

/-- Python `str.lower()` (ASCII statuses only in this code base). -/
def pyToLower (s : String) : String := ⟨s.data.map Char.toLower⟩

/-- The status whitelist used by every reconciliation path:
`['active', 'open', 'pending', 'live']`. -/
def activeStatuses : List String := ["active", "open", "pending", "live"]

/-- `status in ['active','open','pending','live'] and remaining_amount > 0`
with the `status.lower()` normalisation the source applies first. -/
def isExchangeActive (o : ApiOrder) : Bool :=
  activeStatuses.contains (pyToLower o.status) && decide (0 < o.remaining_base_amount)

/-- The set `E` of the specification: ids of exchange-reported orders whose
status is in the whitelist and whose remaining amount is positive.  This
definition follows the spec's words (it does not drop empty ids the way the
code's `api_order_ids` accumulation does) and is compared with the code's
behaviour in the reconciliation theorems. -/
def specExchangeActiveIds (orders : List ApiOrder) : Finset String :=
  ((orders.filter fun o => isExchangeActive o).map fun o => o.order_id).toFinset

/-! ## Order tracker

`SimplifiedGridBot.active_orders` and `OrderTracker.active_orders` are Python
dicts keyed by order id; we model them as association lists whose keys are
distinct (a dict invariant). -/

/-- An in-memory tracker keyed by order id. -/
abbrev Tracker (α : Type) := List (String × α)

/-- The key set of a tracker (`self.active_orders.keys()`). -/
def keysOf {α : Type} (tr : Tracker α) : List String := tr.map Prod.fst

/-- Dict lookup `tr.get(id)`. -/
def lookupKey {α : Type} : Tracker α → String → Option α
  | [], _ => none
  | (k, v) :: rest, id => if id = k then some v else lookupKey rest id

/-- Dict assignment `tr[id] = a`: replaces the value in place when the key is
present, appends otherwise (Python dicts preserve insertion order). -/
def setEntry {α : Type} (tr : Tracker α) (id : String) (a : α) : Tracker α :=
  if (lookupKey tr id).isSome then
    tr.map fun p => if p.1 = id then (id, a) else p
  else
    tr ++ [(id, a)]

/-- `tr.pop(id, None)` restricted to its effect on the dict. -/
def eraseEntry {α : Type} (tr : Tracker α) (id : String) : Tracker α :=
  tr.filter fun p => p.1 ≠ id

/-- Popping every id of a list in turn. -/
def eraseAll {α : Type} (tr : Tracker α) (ids : List String) : Tracker α :=
  ids.foldl (fun t id => eraseEntry t id) tr

/-! ## Orders tracked by `SimplifiedGridBot`

Entries of `self.active_orders` in `grid_strategy.py`.  Orders inserted by
`place_order` carry a `'timestamp'` field; orders inserted by the REST sync
(`sync_orders_from_api`) carry none, hence the `Option`. -/

/-- A tracked order of `SimplifiedGridBot.active_orders`. -/
structure GridOrder where
  side : Side
  price : ℚ
  quantity : ℚ
  position_type : PosType
  timestamp : Option ℚ
deriving DecidableEq, Repr

abbrev GridTracker := Tracker GridOrder

/-- Outcome of `await self.lighter.account_active_orders(symbol)`:
the call raised, returned a non-dict value, or returned a dict with an
optional integer `code` and a (possibly absent, i.e. empty) `orders` list. -/
inductive ApiResult where
  | raised
  | nonDict
  | ok (code : Option ℤ) (orders : List ApiOrder)
deriving DecidableEq, Repr

namespace SimplifiedGridBot

/-- Position-type inference of `sync_orders_from_api`:
`'short' if (side == 'sell' and self.long_position <= 0) or
(side == 'buy' and self.short_position > 0) else 'long'`. -/
def inferPositionType (pos : Positions) (side : Side) : PosType :=
  if (side = Side.sell ∧ pos.long_position ≤ 0) ∨
     (side = Side.buy ∧ 0 < pos.short_position) then
    PosType.short
  else
    PosType.long

/-- The dict `sync_orders_from_api` stores for an exchange-active order:
side from `is_ask`, price, quantity = remaining amount, inferred position
type, and no `'timestamp'` key. -/
def apiSyncedEntry (pos : Positions) (o : ApiOrder) : GridOrder :=
  let side := if o.is_ask then Side.sell else Side.buy
  { side := side
    price := o.price
    quantity := o.remaining_base_amount
    position_type := inferPositionType pos side
    timestamp := none }

/-- The `api_order_ids` set accumulated by `sync_orders_from_api`: ids of
orders that are exchange-active and whose id string is nonempty. -/
def gridActiveIds (orders : List ApiOrder) : List String :=
  orders.filterMap fun o =>
    if isExchangeActive o ∧ o.order_id ≠ "" then some o.order_id else none

/-- The insertion loop of `sync_orders_from_api`: every exchange-active order
with a nonempty id is written into `self.active_orders`. -/
def gridInsertPhase (pos : Positions) (orders : List ApiOrder)
    (tr : GridTracker) : GridTracker :=
  orders.foldl
    (fun t o =>
      if isExchangeActive o ∧ o.order_id ≠ "" then
        setEntry t o.order_id (apiSyncedEntry pos o)
      else t)
    tr

/-- Result of one REST sync pass: the tracker afterwards and the ids popped
from it (`completed_order_ids`). -/
structure SyncResult where
  tracker : GridTracker
  removed : List String
deriving DecidableEq, Repr

/-- `SimplifiedGridBot.sync_orders_from_api` (grid_strategy.py, lines
280–346), for a bot with `dry_run = False`.  A raised fetch (and the
`AttributeError` a non-dict response causes at `response.get`) is caught by
the surrounding `except`, leaving the tracker untouched.  A dict response
with an empty (or absent) `orders` list clears the whole tracker.  Otherwise
every exchange-active order is upserted, and every tracked id not among the
active api ids is popped. -/
def sync_orders_from_api (tr : GridTracker) (pos : Positions)
    (resp : ApiResult) : SyncResult :=
  match resp with
  | ApiResult.raised => ⟨tr, []⟩
  | ApiResult.nonDict => ⟨tr, []⟩
  | ApiResult.ok _ orders =>
    if orders = [] then
      ⟨[], keysOf tr⟩
    else
      let tr1 := gridInsertPhase pos orders tr
      let apiIds := gridActiveIds orders
      let completed := (keysOf tr1).filter fun k => ¬ k ∈ apiIds
      ⟨eraseAll tr1 completed, completed⟩

/-- The common position-update rule shared by
`_update_positions_from_completed_order`, `_update_positions_from_fill`,
`handle_order_fill` and the dry-run fill simulation:
buy/long adds to `long_position`, sell/long subtracts clamped at zero,
sell/short adds to `short_position`, buy/short subtracts clamped at zero. -/
def applyFill (side : Side) (pt : PosType) (q : ℚ) (pos : Positions) :
    Positions :=
  match side, pt with
  | Side.buy, PosType.long =>
      { pos with long_position := pos.long_position + q }
  | Side.sell, PosType.long =>
      { pos with long_position := max 0 (pos.long_position - q) }
  | Side.sell, PosType.short =>
      { pos with short_position := pos.short_position + q }
  | Side.buy, PosType.short =>
      { pos with short_position := max 0 (pos.short_position - q) }

/-- `SimplifiedGridBot._update_positions_from_completed_order`
(grid_strategy.py, lines 693–719): apply the fill assumption only when the
recorded quantity is positive. -/
def update_positions_from_completed_order (o : GridOrder) (pos : Positions) :
    Positions :=
  if 0 < o.quantity then applyFill o.side o.position_type o.quantity pos
  else pos

/-- `SimplifiedGridBot.handle_order_fill` (grid_strategy.py, lines 906–929):
the position update it performs for a fill event carrying `fill_quantity`. -/
def handle_order_fill (side : Side) (pt : PosType) (fillQuantity : ℚ)
    (pos : Positions) : Positions :=
  applyFill side pt fillQuantity pos

/-- The position-update part of `simulate_order_fills_in_dry_run`
(grid_strategy.py, lines 1160–1168): each simulated fill applies the common
rule with the tracked order's own quantity. -/
def simulate_order_fills (fills : List GridOrder) (pos : Positions) :
    Positions :=
  fills.foldl (fun p o => applyFill o.side o.position_type o.quantity p) pos

/-- The `websocket_order_ids` set of `handle_account_orders_update`: ids of
ALL orders present in the WebSocket payload, regardless of status or
remaining amount (only empty ids are skipped). -/
def wsReportedIds (ws : List ApiOrder) : List String :=
  ws.filterMap fun o => if o.order_id ≠ "" then some o.order_id else none

/-- `missing_order_ids = tracked_order_ids - websocket_order_ids`. -/
def missingIds (tr : GridTracker) (ws : List ApiOrder) : List String :=
  (keysOf tr).filter fun k => ¬ k ∈ wsReportedIds ws

/-- One iteration of the vanished-order loop: pop the id and, when it was
present, apply the fill assumption to the popped order. -/
def missingStep (tp : GridTracker × Positions) (id : String) :
    GridTracker × Positions :=
  match lookupKey tp.1 id with
  | some o => (eraseEntry tp.1 id, update_positions_from_completed_order o tp.2)
  | none => tp

/-- The vanished-order phase of `handle_account_orders_update`
(grid_strategy.py, lines 672–687): every tracked id absent from the
WebSocket payload is popped, and the fill assumption
`_update_positions_from_completed_order` is applied to the popped order. -/
def processMissingOrders (tr : GridTracker) (pos : Positions)
    (ws : List ApiOrder) : GridTracker × Positions :=
  (missingIds tr ws).foldl missingStep (tr, pos)

/-- The `_ws_zero_consecutive` / `_last_ws_zero_time` attribute pair of
`_reconcile_order_tracking`; `none` models the attributes not existing yet
(`hasattr` false). -/
structure ZeroState where
  consec : ℕ
  lastZeroTime : ℚ
deriving DecidableEq, Repr

/-- The consecutive-zero counter update at the top of the WebSocket=0 branch:
missing attributes are initialised to `(0, current_time)` and then the
counter is incremented when the previous zero reading was less than 10
seconds ago, else reset to 1; `_last_ws_zero_time` becomes `current_time`. -/
def updateZeroState (st : Option ZeroState) (t : ℚ) : ZeroState :=
  match st with
  | none => ⟨1, t⟩
  | some s => ⟨if t - s.lastZeroTime < 10 then s.consec + 1 else 1, t⟩

/-- `self._ws_zero_consecutive = 0` guarded by `hasattr` (the reset applied
in the in-sync and WebSocket-surplus branches). -/
def resetConsec (st : Option ZeroState) : Option ZeroState :=
  match st with
  | none => none
  | some s => some ⟨0, s.lastZeroTime⟩

/-- `current_time - order_info['timestamp'] > threshold`.  An entry without a
timestamp (one written by the REST sync) would raise `KeyError` in the
source; it is treated as not-old here, and every theorem below stays in
branches that read no timestamp. -/
def tsOlderThan (t threshold : ℚ) (o : GridOrder) : Bool :=
  match o.timestamp with
  | some ts => decide (threshold < t - ts)
  | none => false

/-- Sort key used by the stale-order cleanup (`x[1]['timestamp']`). -/
def tsKey (p : String × GridOrder) : ℚ := p.2.timestamp.getD 0

/-- Stable insertion of an entry into a timestamp-sorted list. -/
def insertByTs (p : String × GridOrder) :
    List (String × GridOrder) → List (String × GridOrder)
  | [] => [p]
  | q :: rest =>
    if tsKey p ≤ tsKey q then p :: q :: rest else q :: insertByTs p rest

/-- `stale_orders.sort(key=lambda x: x[1]['timestamp'])`. -/
def sortByTs (l : List (String × GridOrder)) : List (String × GridOrder) :=
  l.foldr insertByTs []

/-- Result of `_reconcile_order_tracking`: the tracker afterwards and the
consecutive-zero state afterwards. -/
structure ReconcileResult where
  tracker : GridTracker
  zeroState : Option ZeroState
deriving DecidableEq, Repr

/-- `SimplifiedGridBot._reconcile_order_tracking` (grid_strategy.py, lines
780–884).  `realActive` is the `real_active_orders` id list built by
`handle_account_orders_update`; `restOrders` is the outcome of the REST
verification fallback `_verify_orders_via_rest_api` (`none` models both an
unavailable verification and a raised one, which the source swallows). -/
def reconcile_order_tracking (tr : GridTracker) (realActive : List String)
    (t : ℚ) (st : Option ZeroState) (restOrders : Option (List String)) :
    ReconcileResult :=
  let realCount := realActive.length
  let trackedCount := tr.length
  if realCount ≠ trackedCount then
    if realCount < trackedCount then
      if realCount = 0 ∧ 0 < trackedCount then
        let st' := updateZeroState st t
        if 3 ≤ st'.consec then
          if 5 ≤ st'.consec ∧ 3 ≤ trackedCount ∧
              restOrders = some ([] : List String) then
            ⟨[], some ⟨0, t⟩⟩
          else
            let oldThreshold : ℚ := if 5 ≤ st'.consec then 60 else 120
            let oldIds :=
              (tr.filter fun p => tsOlderThan t oldThreshold p.2).map Prod.fst
            if oldIds ≠ [] then
              ⟨eraseAll tr oldIds, some st'⟩
            else if 12 ≤ st'.consec ∧ trackedCount ≤ 4 then
              ⟨[], some ⟨0, t⟩⟩
            else
              ⟨tr, some st'⟩
        else
          ⟨tr, some st'⟩
      else
        let excess := trackedCount - realCount
        let stale := tr.filter fun p => tsOlderThan t 90 p.2
        let toRemove := ((sortByTs stale).take excess).map Prod.fst
        ⟨eraseAll tr toRemove, st⟩
    else
      ⟨tr, resetConsec st⟩
  else
    ⟨tr, resetConsec st⟩

/-- The shapes `cancel_all_orders` distinguishes for the awaited
`self.lighter.cancel_all_orders()` result: a raised call, `None`, a pair
`(response, error)`, a 1-tuple, or any other single value.  All of them are
only logged. -/
inductive CancelOutcome where
  | raised
  | retNone
  | retPair (error : Option String)
  | retSingle
  | retOther
deriving DecidableEq, Repr

/-- `SimplifiedGridBot.cancel_all_orders` (grid_strategy.py, lines 932–981):
in dry-run and real mode alike, the tracked count is captured, local
tracking is cleared before the API call, every API outcome is merely
logged, and the captured count is returned. -/
def cancel_all_orders (dryRun : Bool) (tr : GridTracker)
    (outcome : CancelOutcome) : ℕ × GridTracker :=
  if dryRun then
    (tr.length, [])
  else
    let cancelledCount := tr.length
    match outcome with
    | _ => (cancelledCount, [])

end SimplifiedGridBot

/-! ## Rounding

Python's built-in `round` rounds half to even. -/

/-- Round a rational to the nearest integer, ties to even
(Python `round(x)`). -/
def roundHalfEven (x : ℚ) : ℤ :=
  let n := ⌊x⌋
  let f := x - (n : ℚ)
  if f < 1/2 then n
  else if 1/2 < f then n + 1
  else if n % 2 = 0 then n else n + 1

/-- Python `round(x, prec)` for a nonnegative number of digits. -/
def roundTo (x : ℚ) (prec : ℕ) : ℚ :=
  (roundHalfEven (x * 10 ^ prec) : ℚ) / 10 ^ prec

/-- `Lighter.format_price` (client.py, lines 950–964):
`round(float(price), precision)` with the market's price precision. -/
def format_price (price : ℚ) (pricePrecision : ℕ) : ℚ :=
  roundTo price pricePrecision

namespace SimplifiedGridBot

/-- `SimplifiedGridBot.calculate_order_quantity` (grid_strategy.py, lines
219–257), in the configuration where `step_size` is set (`0 < stepSize`
models `self.step_size and self.step_size > 0`; the fallback rounds to
`amount_precision` digits instead). -/
def calculate_order_quantity (orderAmount minQuoteAmount stepSize : ℚ)
    (amountPrecision : ℕ) (price : ℚ) : ℚ :=
  if price ≤ 0 then 0
  else
    let baseQuantity := orderAmount / price
    let quantity :=
      if 0 < stepSize then
        let q0 := (⌊baseQuantity / stepSize⌋ : ℚ) * stepSize
        if q0 < stepSize then stepSize else q0
      else roundTo baseQuantity amountPrecision
    let quoteValue := quantity * price
    if quoteValue < minQuoteAmount then
      let minQuantity := minQuoteAmount / price
      if 0 < stepSize then (⌈minQuantity / stepSize⌉ : ℚ) * stepSize
      else roundTo minQuantity amountPrecision
    else quantity

/-- What the long-side block of `adjust_grid_strategy` decides to submit. -/
inductive GridAction where
  | place (side : Side) (price : ℚ)
  | wait
deriving DecidableEq, Repr

/-- The long-side block of `SimplifiedGridBot.adjust_grid_strategy`
(grid_strategy.py, lines 1061–1088): with no long position and fewer than two
tracked long/buy orders, a buy entry at `latest_price * (1 - grid_spacing)`;
with a long position and fewer than two tracked long/sell orders, a sell
exit at `latest_price * (1 + grid_spacing)`. -/
def longGridDecision (tr : GridTracker) (longPosition latestPrice
    gridSpacing : ℚ) : GridAction :=
  if longPosition = 0 then
    if (tr.filter fun p =>
        p.2.position_type = PosType.long ∧ p.2.side = Side.buy).length < 2 then
      GridAction.place Side.buy (latestPrice * (1 - gridSpacing))
    else GridAction.wait
  else
    if (tr.filter fun p =>
        p.2.position_type = PosType.long ∧ p.2.side = Side.sell).length < 2 then
      GridAction.place Side.sell (latestPrice * (1 + gridSpacing))
    else GridAction.wait

end SimplifiedGridBot

/-! ## `OrderSyncManager` (pylighter/order_manager.py) -/

namespace OrderSyncManager

/-- `OrderInfo` of order_manager.py (symbol omitted: the tracker is
per-symbol). -/
structure OMOrder where
  order_id : String
  side : Side
  price : ℚ
  quantity : ℚ
  remaining_quantity : ℚ
  status : String
  timestamp : ℚ
deriving DecidableEq, Repr

abbrev OMTracker := Pylighter.Tracker OMOrder

/-- `OrderSyncManager._parse_order_data`: `None` for an empty id, otherwise
an `OrderInfo` whose status is lowercased, whose quantity is the total
`base_amount` and whose remaining quantity is `remaining_base_amount`.  The
total amount is not part of `ApiOrder` because no claim depends on it; it is
taken equal to the remaining amount here. -/
def parse_order_data (now : ℚ) (o : ApiOrder) : Option OMOrder :=
  if o.order_id = "" then none
  else
    some
      { order_id := o.order_id
        side := if o.is_ask then Side.sell else Side.buy
        price := o.price
        quantity := o.remaining_base_amount
        remaining_quantity := o.remaining_base_amount
        status := pyToLower o.status
        timestamp := now }

/-- `OrderSyncManager._is_active_order` (order_manager.py, lines 230–233):
the status whitelist test on the already-lowercased status, and a positive
remaining quantity. -/
def is_active_order (o : OMOrder) : Bool :=
  activeStatuses.contains o.status && decide (0 < o.remaining_quantity)

/-- The per-order step of the sync loop: parsed orders that are active are
either updated in place (`tracker.update_order`, which rewrites
`remaining_quantity` and `status`) or added (`tracker.add_order`). -/
def omUpsert (tr : OMTracker) (o : OMOrder) : OMTracker :=
  setEntry tr o.order_id
    (match lookupKey tr o.order_id with
     | some old =>
       { old with remaining_quantity := o.remaining_quantity,
                  status := o.status }
     | none => o)

/-- The insertion loop of `OrderSyncManager.sync_orders_from_api`. -/
def omInsertPhase (now : ℚ) (orders : List ApiOrder) (tr : OMTracker) :
    OMTracker :=
  orders.foldl
    (fun t o =>
      match parse_order_data now o with
      | some oi => if is_active_order oi then omUpsert t oi else t
      | none => t)
    tr

/-- The `api_order_ids` set of `OrderSyncManager.sync_orders_from_api`. -/
def omActiveIds (now : ℚ) (orders : List ApiOrder) : List String :=
  orders.filterMap fun o =>
    match parse_order_data now o with
    | some oi => if is_active_order oi then some oi.order_id else none
    | none => none

/-- Result of `OrderSyncManager.sync_orders_from_api`: the tracker
afterwards, the removed ids, and the boolean the method returns. -/
structure OMSyncResult where
  tracker : OMTracker
  removed : List String
  success : Bool
deriving DecidableEq, Repr

/-- `OrderSyncManager.sync_orders_from_api` (order_manager.py, lines
147–199).  A raised fetch returns `False` with the tracker untouched; so
does a non-dict response and a response whose `code` is truthy and not 200.
Otherwise active orders are upserted and every tracked id not among the
active api ids is removed. -/
def sync_orders_from_api (tr : OMTracker) (now : ℚ) (resp : ApiResult) :
    OMSyncResult :=
  match resp with
  | ApiResult.raised => ⟨tr, [], false⟩
  | ApiResult.nonDict => ⟨tr, [], false⟩
  | ApiResult.ok code orders =>
    match code with
    | some c =>
      if c ≠ 0 ∧ c ≠ 200 then ⟨tr, [], false⟩
      else
        let tr1 := omInsertPhase now orders tr
        let apiIds := omActiveIds now orders
        let completed := (keysOf tr1).filter fun k => ¬ k ∈ apiIds
        ⟨eraseAll tr1 completed, completed, true⟩
    | none =>
      let tr1 := omInsertPhase now orders tr
      let apiIds := omActiveIds now orders
      let completed := (keysOf tr1).filter fun k => ¬ k ∈ apiIds
      ⟨eraseAll tr1 completed, completed, true⟩

end OrderSyncManager

/-! ## Dynamic take-profit multiplier -/

/-- `clamp(x, lo, hi)` as `max(lo, min(hi, x))`. -/
def clampQ (x lo hi : ℚ) : ℚ := max lo (min hi x)

/-- Modelled from the spec: the dynamic take-profit multiplier of §4.3
"Holding, oversized" is implemented by none of the grid variants under
`src/`; following the spec's words, with a nonzero opposite-side position
the multiplier is `clamp(position / opposite_position / 100 + 1,
1 + min_profit, 1 + max_profit)`, and with a zero opposite position the
fixed aggressive 2% take-profit applies. -/
def dynamicTakeProfitMultiplier (position oppositePosition minProfit
    maxProfit : ℚ) : ℚ :=
  if oppositePosition ≠ 0 then
    clampQ (position / oppositePosition / 100 + 1) (1 + minProfit)
      (1 + maxProfit)
  else
    1 + 2 / 100

/-! ## Tracker lemmas -/

theorem mem_keysOf_iff_lookup {α : Type} (tr : Tracker α) (id : String) :
    id ∈ keysOf tr ↔ (lookupKey tr id).isSome = true := by
  induction tr with
  | nil => simp [keysOf, lookupKey]
  | cons p rest ih =>
    obtain ⟨k, v⟩ := p
    by_cases hk : id = k
    · subst hk; simp [keysOf, lookupKey]
    · simp only [keysOf, List.map_cons, List.mem_cons, lookupKey,
        if_neg hk]
      simp only [keysOf] at ih
      simp [hk, ih]

theorem lookup_eq_some_of_mem {α : Type} {tr : Tracker α} {id : String}
    {a : α} (hnd : (keysOf tr).Nodup) (hmem : (id, a) ∈ tr) :
    lookupKey tr id = some a := by
  induction tr with
  | nil => simp at hmem
  | cons p rest ih =>
    obtain ⟨k, v⟩ := p
    simp only [keysOf, List.map_cons, List.nodup_cons] at hnd
    rcases List.mem_cons.mp hmem with h | h
    · rw [Prod.mk.injEq] at h
      simp [lookupKey, h.1.symm, h.2]
    · have hk : id ≠ k := by
        intro he
        subst he
        exact hnd.1 (by simpa [keysOf] using List.mem_map_of_mem Prod.fst h)
      simpa [lookupKey, hk] using ih hnd.2 h

theorem keysOf_map_setValue {α : Type} (tr : Tracker α) (id : String)
    (a : α) :
    keysOf (tr.map fun p => if p.1 = id then (id, a) else p) = keysOf tr := by
  unfold keysOf
  rw [List.map_map]
  refine List.map_congr_left ?_
  intro p _
  by_cases hp : p.1 = id <;> simp [hp]

theorem mem_keysOf_setEntry {α : Type} (tr : Tracker α) (id : String)
    (a : α) (k : String) :
    k ∈ keysOf (setEntry tr id a) ↔ k ∈ keysOf tr ∨ k = id := by
  unfold setEntry
  by_cases h : (lookupKey tr id).isSome = true
  · have hid : id ∈ keysOf tr := (mem_keysOf_iff_lookup tr id).mpr h
    rw [if_pos h, keysOf_map_setValue]
    constructor
    · exact Or.inl
    · rintro (hk | rfl)
      · exact hk
      · exact hid
  · rw [if_neg h]
    simp [keysOf]

theorem nodup_keysOf_setEntry {α : Type} (tr : Tracker α) (id : String)
    (a : α) (hnd : (keysOf tr).Nodup) :
    (keysOf (setEntry tr id a)).Nodup := by
  unfold setEntry
  by_cases h : (lookupKey tr id).isSome = true
  · rw [if_pos h, keysOf_map_setValue]
    exact hnd
  · have hid : ¬ id ∈ keysOf tr := fun hm =>
      h ((mem_keysOf_iff_lookup tr id).mp hm)
    rw [if_neg h]
    have hkeys : keysOf (tr ++ [(id, a)]) = keysOf tr ++ [id] := by
      simp [keysOf]
    rw [hkeys, List.nodup_append]
    refine ⟨hnd, List.nodup_singleton id, fun x hx hx' => ?_⟩
    rw [List.mem_singleton] at hx'
    exact hid (hx' ▸ hx)

theorem keysOf_eraseEntry {α : Type} (tr : Tracker α) (id : String) :
    keysOf (eraseEntry tr id) = (keysOf tr).filter (fun k => k ≠ id) := by
  induction tr with
  | nil => rfl
  | cons p rest ih =>
    obtain ⟨k, v⟩ := p
    by_cases hk : k = id
    · simpa [eraseEntry, keysOf, List.filter_cons, hk] using ih
    · simpa [eraseEntry, keysOf, List.filter_cons, hk] using ih

theorem keysOf_eraseEntry_subset {α : Type} (tr : Tracker α) (id : String) :
    ∀ k, k ∈ keysOf (eraseEntry tr id) → k ∈ keysOf tr := by
  intro k hk
  rw [keysOf_eraseEntry] at hk
  exact (List.mem_filter.mp hk).1

theorem keysOf_eraseAll_subset {α : Type} (ids : List String) (tr : Tracker α) :
    ∀ k, k ∈ keysOf (eraseAll tr ids) → k ∈ keysOf tr := by
  induction ids generalizing tr with
  | nil => intro k hk; exact hk
  | cons i is ih =>
    intro k hk
    exact keysOf_eraseEntry_subset tr i k (ih (eraseEntry tr i) k hk)

/-! ## Reconciliation lemmas -/

namespace SimplifiedGridBot

theorem mem_keysOf_gridInsertPhase (pos : Positions) (orders : List ApiOrder)
    (tr : GridTracker) (k : String) :
    k ∈ keysOf (gridInsertPhase pos orders tr) ↔
      k ∈ keysOf tr ∨ k ∈ gridActiveIds orders := by
  induction orders generalizing tr with
  | nil => simp [gridInsertPhase, gridActiveIds]
  | cons o os ih =>
    by_cases h : isExchangeActive o ∧ o.order_id ≠ ""
    · have hstep : gridInsertPhase pos (o :: os) tr =
          gridInsertPhase pos os
            (setEntry tr o.order_id (apiSyncedEntry pos o)) := by
        simp [gridInsertPhase, h]
      have hids : gridActiveIds (o :: os) = o.order_id :: gridActiveIds os := by
        simp [gridActiveIds, h]
      rw [hstep, ih, hids, mem_keysOf_setEntry, List.mem_cons]
      tauto
    · have hstep : gridInsertPhase pos (o :: os) tr =
          gridInsertPhase pos os tr := by
        simp [gridInsertPhase, h]
      have hids : gridActiveIds (o :: os) = gridActiveIds os := by
        simp [gridActiveIds, h]
      rw [hstep, ih, hids]

theorem nodup_keysOf_gridInsertPhase (pos : Positions)
    (orders : List ApiOrder) (tr : GridTracker)
    (hnd : (keysOf tr).Nodup) :
    (keysOf (gridInsertPhase pos orders tr)).Nodup := by
  induction orders generalizing tr with
  | nil => exact hnd
  | cons o os ih =>
    by_cases h : isExchangeActive o ∧ o.order_id ≠ ""
    · have hstep : gridInsertPhase pos (o :: os) tr =
          gridInsertPhase pos os
            (setEntry tr o.order_id (apiSyncedEntry pos o)) := by
        simp [gridInsertPhase, h]
      rw [hstep]
      exact ih _ (nodup_keysOf_setEntry _ _ _ hnd)
    · have hstep : gridInsertPhase pos (o :: os) tr =
          gridInsertPhase pos os tr := by
        simp [gridInsertPhase, h]
      rw [hstep]
      exact ih _ hnd

theorem mem_gridActiveIds_iff_spec (orders : List ApiOrder) (k : String)
    (hIds : ∀ o ∈ orders, o.order_id ≠ "") :
    k ∈ gridActiveIds orders ↔ k ∈ specExchangeActiveIds orders := by
  induction orders with
  | nil => simp [gridActiveIds, specExchangeActiveIds]
  | cons o os ih =>
    have ho : o.order_id ≠ "" := hIds o (List.mem_cons_self o os)
    have hrest : ∀ o' ∈ os, o'.order_id ≠ "" := fun o' h' =>
      hIds o' (List.mem_cons_of_mem o h')
    by_cases ha : isExchangeActive o
    · simp only [gridActiveIds, specExchangeActiveIds] at ih ⊢
      simp [List.filter_cons, ha, ho, ih hrest]
    · simp only [gridActiveIds, specExchangeActiveIds] at ih ⊢
      simp [List.filter_cons, ha, ho, ih hrest]

theorem removed_mem_char (tr : GridTracker) (pos : Positions)
    (code : Option ℤ) (orders : List ApiOrder)
    (hIds : ∀ o ∈ orders, o.order_id ≠ "") (hne : orders ≠ []) (k : String) :
    k ∈ (sync_orders_from_api tr pos (ApiResult.ok code orders)).removed ↔
      k ∈ keysOf tr ∧ ¬ k ∈ specExchangeActiveIds orders := by
  simp only [sync_orders_from_api]
  rw [if_neg hne]
  simp only [List.mem_filter, decide_eq_true_eq]
  rw [mem_keysOf_gridInsertPhase, mem_gridActiveIds_iff_spec orders k hIds]
  tauto

theorem removed_nodup (tr : GridTracker) (pos : Positions)
    (code : Option ℤ) (orders : List ApiOrder)
    (hnd : (keysOf tr).Nodup) :
    (sync_orders_from_api tr pos (ApiResult.ok code orders)).removed.Nodup := by
  simp only [sync_orders_from_api]
  by_cases hne : orders = []
  · rw [if_pos hne]
    exact hnd
  · rw [if_neg hne]
    exact (nodup_keysOf_gridInsertPhase pos orders tr hnd).filter _

end SimplifiedGridBot

namespace OrderSyncManager

theorem omActiveIds_eq_grid (now : ℚ) (orders : List ApiOrder) :
    omActiveIds now orders = SimplifiedGridBot.gridActiveIds orders := by
  induction orders with
  | nil => rfl
  | cons o os ih =>
    by_cases ho : o.order_id = ""
    · simp [omActiveIds, SimplifiedGridBot.gridActiveIds, List.filterMap_cons,
        parse_order_data, ho] at ih ⊢
      exact ih
    · by_cases ha : isExchangeActive o
      · have hact : is_active_order
            { order_id := o.order_id
              side := if o.is_ask then Side.sell else Side.buy
              price := o.price
              quantity := o.remaining_base_amount
              remaining_quantity := o.remaining_base_amount
              status := pyToLower o.status
              timestamp := now } = true := by
          simpa [is_active_order, isExchangeActive] using ha
        simp [omActiveIds, SimplifiedGridBot.gridActiveIds,
          List.filterMap_cons, parse_order_data, ho, ha, hact] at ih ⊢
        exact ih
      · have hact : is_active_order
            { order_id := o.order_id
              side := if o.is_ask then Side.sell else Side.buy
              price := o.price
              quantity := o.remaining_base_amount
              remaining_quantity := o.remaining_base_amount
              status := pyToLower o.status
              timestamp := now } = false := by
          simpa [is_active_order, isExchangeActive] using ha
        simp [omActiveIds, SimplifiedGridBot.gridActiveIds,
          List.filterMap_cons, parse_order_data, ho, ha, hact] at ih ⊢
        exact ih

theorem mem_keysOf_omInsertPhase (now : ℚ) (orders : List ApiOrder)
    (tr : OMTracker) (k : String) :
    k ∈ keysOf (omInsertPhase now orders tr) ↔
      k ∈ keysOf tr ∨ k ∈ omActiveIds now orders := by
  induction orders generalizing tr with
  | nil => simp [omInsertPhase, omActiveIds]
  | cons o os ih =>
    by_cases ho : o.order_id = ""
    · have hstep : omInsertPhase now (o :: os) tr = omInsertPhase now os tr := by
        simp [omInsertPhase, parse_order_data, ho]
      have hids : omActiveIds now (o :: os) = omActiveIds now os := by
        simp [omActiveIds, List.filterMap_cons, parse_order_data, ho]
      rw [hstep, hids, ih]
    · set oi : OMOrder :=
        { order_id := o.order_id
          side := if o.is_ask then Side.sell else Side.buy
          price := o.price
          quantity := o.remaining_base_amount
          remaining_quantity := o.remaining_base_amount
          status := pyToLower o.status
          timestamp := now } with hoi
      have hparse : parse_order_data now o = some oi := by
        simp [parse_order_data, ho, hoi]
      by_cases ha : is_active_order oi
      · have hstep : omInsertPhase now (o :: os) tr =
            omInsertPhase now os (omUpsert tr oi) := by
          simp [omInsertPhase, hparse, ha]
        have hids : omActiveIds now (o :: os) =
            o.order_id :: omActiveIds now os := by
          simp [omActiveIds, List.filterMap_cons, hparse, ha, hoi]
        rw [hstep, ih, hids, List.mem_cons]
        unfold omUpsert
        rw [mem_keysOf_setEntry]
        have : oi.order_id = o.order_id := by rw [hoi]
        rw [this]
        tauto
      · have hstep : omInsertPhase now (o :: os) tr =
            omInsertPhase now os tr := by
          simp [omInsertPhase, hparse, ha]
        have hids : omActiveIds now (o :: os) = omActiveIds now os := by
          simp [omActiveIds, List.filterMap_cons, hparse, ha]
        rw [hstep, hids, ih]

theorem nodup_keysOf_omInsertPhase (now : ℚ) (orders : List ApiOrder)
    (tr : OMTracker) (hnd : (keysOf tr).Nodup) :
    (keysOf (omInsertPhase now orders tr)).Nodup := by
  induction orders generalizing tr with
  | nil => exact hnd
  | cons o os ih =>
    by_cases ho : o.order_id = ""
    · have hstep : omInsertPhase now (o :: os) tr = omInsertPhase now os tr := by
        simp [omInsertPhase, parse_order_data, ho]
      rw [hstep]
      exact ih _ hnd
    · set oi : OMOrder :=
        { order_id := o.order_id
          side := if o.is_ask then Side.sell else Side.buy
          price := o.price
          quantity := o.remaining_base_amount
          remaining_quantity := o.remaining_base_amount
          status := pyToLower o.status
          timestamp := now } with hoi
      have hparse : parse_order_data now o = some oi := by
        simp [parse_order_data, ho, hoi]
      by_cases ha : is_active_order oi
      · have hstep : omInsertPhase now (o :: os) tr =
            omInsertPhase now os (omUpsert tr oi) := by
          simp [omInsertPhase, hparse, ha]
        rw [hstep]
        exact ih _ (nodup_keysOf_setEntry _ _ _ hnd)
      · have hstep : omInsertPhase now (o :: os) tr =
            omInsertPhase now os tr := by
          simp [omInsertPhase, hparse, ha]
        rw [hstep]
        exact ih _ hnd

theorem om_removed_mem_char (tr : OMTracker) (now : ℚ)
    (orders : List ApiOrder)
    (hIds : ∀ o ∈ orders, o.order_id ≠ "") (k : String) :
    k ∈ (sync_orders_from_api tr now (ApiResult.ok none orders)).removed ↔
      k ∈ keysOf tr ∧ ¬ k ∈ specExchangeActiveIds orders := by
  simp only [sync_orders_from_api]
  simp only [List.mem_filter, decide_eq_true_eq]
  rw [mem_keysOf_omInsertPhase, omActiveIds_eq_grid,
    SimplifiedGridBot.mem_gridActiveIds_iff_spec orders k hIds]
  tauto

theorem om_removed_nodup (tr : OMTracker) (now : ℚ)
    (orders : List ApiOrder) (hnd : (keysOf tr).Nodup) :
    (sync_orders_from_api tr now (ApiResult.ok none orders)).removed.Nodup := by
  simp only [sync_orders_from_api]
  exact (nodup_keysOf_omInsertPhase now orders tr hnd).filter _

end OrderSyncManager

/-! ## Claim theorems -/

/-- A stale tracked order used by the concrete instantiations. -/
def wTrackedOrder : GridOrder :=
  { side := Side.buy, price := 5, quantity := 2,
    position_type := PosType.long, timestamp := some 0 }

/-- A concrete exchange-active order used by the concrete instantiations. -/
def wActiveOrder : ApiOrder :=
  { order_id := "1", status := "open", remaining_base_amount := 3,
    is_ask := false, price := 5 }

/-- Claim C1: for a reconciliation pass over a fetched exchange snapshot
(`SimplifiedGridBot.sync_orders_from_api` on any successful dict response,
and `OrderSyncManager.sync_orders_from_api` likewise), with `T` the tracked
id set before the pass and `E` the ids of exchange-reported orders whose
status is in the active whitelist with positive remaining amount, the set of
ids removed from the tracker is exactly `T \ E`, the removed count is
`|T \ E|`, and no id belonging to `E` is removed. -/
theorem c1_reconciliation_removes_exactly_vanished
    (tr : GridTracker) (pos : Positions) (omTr : OrderSyncManager.OMTracker)
    (now : ℚ) (code : Option ℤ) (orders : List ApiOrder)
    (hnd : (keysOf tr).Nodup) (hndOm : (keysOf omTr).Nodup)
    (hIds : ∀ o ∈ orders, o.order_id ≠ "") :
    ((SimplifiedGridBot.sync_orders_from_api tr pos
        (ApiResult.ok code orders)).removed.toFinset =
          (keysOf tr).toFinset \ specExchangeActiveIds orders ∧
      (SimplifiedGridBot.sync_orders_from_api tr pos
        (ApiResult.ok code orders)).removed.length =
          ((keysOf tr).toFinset \ specExchangeActiveIds orders).card ∧
      ∀ id ∈ specExchangeActiveIds orders,
        ¬ id ∈ (SimplifiedGridBot.sync_orders_from_api tr pos
          (ApiResult.ok code orders)).removed) ∧
    ((OrderSyncManager.sync_orders_from_api omTr now
        (ApiResult.ok none orders)).removed.toFinset =
          (keysOf omTr).toFinset \ specExchangeActiveIds orders ∧
      (OrderSyncManager.sync_orders_from_api omTr now
        (ApiResult.ok none orders)).removed.length =
          ((keysOf omTr).toFinset \ specExchangeActiveIds orders).card ∧
      ∀ id ∈ specExchangeActiveIds orders,
        ¬ id ∈ (OrderSyncManager.sync_orders_from_api omTr now
          (ApiResult.ok none orders)).removed) := by
  constructor
  · by_cases hne : orders = []
    · subst hne
      have hr : SimplifiedGridBot.sync_orders_from_api tr pos
          (ApiResult.ok code []) =
          SimplifiedGridBot.SyncResult.mk [] (keysOf tr) := by
        simp [SimplifiedGridBot.sync_orders_from_api]
      have hE : specExchangeActiveIds ([] : List ApiOrder) = ∅ := rfl
      refine ⟨?_, ?_, ?_⟩
      · rw [hr, hE]
        simp
      · rw [hr, hE]
        simp [List.toFinset_card_of_nodup hnd]
      · rw [hE]
        simp
    · have hset : (SimplifiedGridBot.sync_orders_from_api tr pos
          (ApiResult.ok code orders)).removed.toFinset =
            (keysOf tr).toFinset \ specExchangeActiveIds orders := by
        ext k
        rw [List.mem_toFinset, Finset.mem_sdiff, List.mem_toFinset,
          SimplifiedGridBot.removed_mem_char tr pos code orders hIds hne k]
      refine ⟨hset, ?_, ?_⟩
      · rw [← hset]
        exact (List.toFinset_card_of_nodup
          (SimplifiedGridBot.removed_nodup tr pos code orders hnd)).symm
      · intro id hid hmem
        exact ((SimplifiedGridBot.removed_mem_char tr pos code orders hIds
          hne id).mp hmem).2 hid
  · have hset : (OrderSyncManager.sync_orders_from_api omTr now
        (ApiResult.ok none orders)).removed.toFinset =
          (keysOf omTr).toFinset \ specExchangeActiveIds orders := by
      ext k
      rw [List.mem_toFinset, Finset.mem_sdiff, List.mem_toFinset,
        OrderSyncManager.om_removed_mem_char omTr now orders hIds k]
    refine ⟨hset, ?_, ?_⟩
    · rw [← hset]
      exact (List.toFinset_card_of_nodup
        (OrderSyncManager.om_removed_nodup omTr now orders hndOm)).symm
    · intro id hid hmem
      exact ((OrderSyncManager.om_removed_mem_char omTr now orders hIds
        id).mp hmem).2 hid

theorem processMissing_single (tr : GridTracker) (pos : Positions)
    (ws : List ApiOrder) (id : String) (o : GridOrder)
    (hnd : (keysOf tr).Nodup) (hmem : (id, o) ∈ tr)
    (hmiss : SimplifiedGridBot.missingIds tr ws = [id]) :
    SimplifiedGridBot.processMissingOrders tr pos ws =
      (eraseEntry tr id,
        SimplifiedGridBot.update_positions_from_completed_order o pos) := by
  unfold SimplifiedGridBot.processMissingOrders
  rw [hmiss]
  simp [SimplifiedGridBot.missingStep, lookup_eq_some_of_mem hnd hmem]

/-- Claim C2 (amended): a tracked buy/long order of positive quantity `q`
whose id vanishes from the account WebSocket payload — absent from the set
of ids of ALL reported orders, not merely from the active subset — is
removed by `handle_account_orders_update`'s vanished-order phase, and
`long_position` rises by exactly `q`; moreover the fill-assumption update
for a buy/long order never decreases `long_position`. -/
theorem c2_vanished_buy_long_increases_long
    (tr : GridTracker) (pos : Positions) (ws : List ApiOrder) (id : String)
    (o : GridOrder) (hnd : (keysOf tr).Nodup) (hmem : (id, o) ∈ tr)
    (hbuy : o.side = Side.buy) (hlong : o.position_type = PosType.long)
    (hq : 0 < o.quantity)
    (hmiss : SimplifiedGridBot.missingIds tr ws = [id]) :
    ¬ id ∈ keysOf (SimplifiedGridBot.processMissingOrders tr pos ws).1 ∧
    (SimplifiedGridBot.processMissingOrders tr pos ws).2.long_position =
      pos.long_position + o.quantity ∧
    pos.long_position ≤
      (SimplifiedGridBot.processMissingOrders tr pos ws).2.long_position ∧
    ∀ p : Positions, p.long_position ≤
      (SimplifiedGridBot.update_positions_from_completed_order o p).long_position := by
  rw [processMissing_single tr pos ws id o hnd hmem hmiss]
  have hupd : ∀ p : Positions,
      SimplifiedGridBot.update_positions_from_completed_order o p =
        { p with long_position := p.long_position + o.quantity } := by
    intro p
    unfold SimplifiedGridBot.update_positions_from_completed_order
    rw [if_pos hq, hbuy, hlong]
    rfl
  refine ⟨?_, ?_, ?_, ?_⟩
  · rw [keysOf_eraseEntry]
    intro hmem'
    simpa using (List.mem_filter.mp hmem').2
  · rw [hupd pos]
  · rw [hupd pos]
    simpa using le_of_lt hq
  · intro p
    rw [hupd p]
    simpa using le_of_lt hq

/-- Witness for C2: the tracked buy/long order `"7"` of quantity 2 vanishes
from a WebSocket payload reporting only the unrelated order `"1"`; it is
removed and `long_position` grows from 0 by exactly 2. -/
theorem c2_vanished_buy_long_increases_long_witness :
    ¬ "7" ∈ keysOf (SimplifiedGridBot.processMissingOrders
        [("7", wTrackedOrder)] ⟨0, 0⟩ [wActiveOrder]).1 ∧
    (SimplifiedGridBot.processMissingOrders
        [("7", wTrackedOrder)] ⟨0, 0⟩ [wActiveOrder]).2.long_position =
      (⟨0, 0⟩ : Positions).long_position + wTrackedOrder.quantity ∧
    (⟨0, 0⟩ : Positions).long_position ≤
      (SimplifiedGridBot.processMissingOrders
        [("7", wTrackedOrder)] ⟨0, 0⟩ [wActiveOrder]).2.long_position ∧
    ∀ p : Positions, p.long_position ≤
      (SimplifiedGridBot.update_positions_from_completed_order wTrackedOrder
        p).long_position :=
  c2_vanished_buy_long_increases_long [("7", wTrackedOrder)] ⟨0, 0⟩
    [wActiveOrder] "7" wTrackedOrder (by decide) (by decide) (by decide)
    (by decide) (by decide) (by decide)

/-- A WebSocket payload reporting the tracked order with status `filled`
and no remaining amount: the order is then NOT in the exchange-active set. -/
def c2FilledPayload : List ApiOrder :=
  [{ order_id := "1", status := "filled", remaining_base_amount := 0,
     is_ask := false, price := 5 }]

/-- Counterexample to C2 as stated: the tracked buy/long order `"1"` of
quantity 2 is absent from the reported ACTIVE-order set (its reported status
is `filled` with zero remaining), yet the vanished-order phase keeps it
tracked and leaves `long_position` at 0 instead of increasing it by 2 —
because the source diffs against the ids of ALL reported orders, not the
active ones. -/
theorem c2_counterexample_inactive_reported_not_removed :
    ("1", wTrackedOrder) ∈ ([("1", wTrackedOrder)] : GridTracker) ∧
    wTrackedOrder.side = Side.buy ∧
    wTrackedOrder.position_type = PosType.long ∧
    0 < wTrackedOrder.quantity ∧
    ¬ "1" ∈ specExchangeActiveIds c2FilledPayload ∧
    SimplifiedGridBot.processMissingOrders [("1", wTrackedOrder)] ⟨0, 0⟩
      c2FilledPayload = ([("1", wTrackedOrder)], ⟨0, 0⟩) := by
  refine ⟨by decide, by decide, by decide, by decide, by decide, by decide⟩

/-- Witness for C1: a concrete pass over the snapshot `[wActiveOrder]` with
tracked id `"7"` removes exactly `{"7"}` in the grid bot and nothing in the
empty `OrderSyncManager` tracker, as the theorem demands. -/
theorem c1_reconciliation_removes_exactly_vanished_witness :
    ((SimplifiedGridBot.sync_orders_from_api [("7", wTrackedOrder)] ⟨0, 0⟩
        (ApiResult.ok none [wActiveOrder])).removed.toFinset =
          (keysOf [("7", wTrackedOrder)]).toFinset \
            specExchangeActiveIds [wActiveOrder] ∧
      (SimplifiedGridBot.sync_orders_from_api [("7", wTrackedOrder)] ⟨0, 0⟩
        (ApiResult.ok none [wActiveOrder])).removed.length =
          ((keysOf [("7", wTrackedOrder)]).toFinset \
            specExchangeActiveIds [wActiveOrder]).card ∧
      ∀ id ∈ specExchangeActiveIds [wActiveOrder],
        ¬ id ∈ (SimplifiedGridBot.sync_orders_from_api [("7", wTrackedOrder)]
          ⟨0, 0⟩ (ApiResult.ok none [wActiveOrder])).removed) ∧
    ((OrderSyncManager.sync_orders_from_api [] 0
        (ApiResult.ok none [wActiveOrder])).removed.toFinset =
          (keysOf ([] : OrderSyncManager.OMTracker)).toFinset \
            specExchangeActiveIds [wActiveOrder] ∧
      (OrderSyncManager.sync_orders_from_api [] 0
        (ApiResult.ok none [wActiveOrder])).removed.length =
          ((keysOf ([] : OrderSyncManager.OMTracker)).toFinset \
            specExchangeActiveIds [wActiveOrder]).card ∧
      ∀ id ∈ specExchangeActiveIds [wActiveOrder],
        ¬ id ∈ (OrderSyncManager.sync_orders_from_api [] 0
          (ApiResult.ok none [wActiveOrder])).removed) :=
  c1_reconciliation_removes_exactly_vanished [("7", wTrackedOrder)] ⟨0, 0⟩ []
    0 none [wActiveOrder] (by decide) (by decide) (by decide)

/-- Counterexample to C4 as stated: a single REST sync pass in which the
exchange responds with an empty order list empties a non-empty tracker at
once, with no persistence state involved at all
(`sync_orders_from_api` clears on its very first empty observation). -/
theorem c4_counterexample_single_empty_snapshot_clears :
    ([("7", wTrackedOrder)] : GridTracker) ≠ [] ∧
    (SimplifiedGridBot.sync_orders_from_api [("7", wTrackedOrder)] ⟨0, 0⟩
        (ApiResult.ok none [])).tracker = [] := by
  refine ⟨by decide, by decide⟩

/-- Claim C4 (amended): in the WebSocket reconciliation step
`_reconcile_order_tracking`, an observation of zero active orders removes
nothing from a non-empty tracker while the consecutive-zero counter
(including the current observation) is still below 3; in particular a first
zero observation never empties the tracker there.  The REST path
`sync_orders_from_api`, by contrast, clears everything on a single
empty-orders response. -/
theorem c4_reconcile_zero_requires_persistence
    (tr : GridTracker) (t : ℚ) (st : Option SimplifiedGridBot.ZeroState)
    (rest : Option (List String)) (hne : tr ≠ [])
    (hc : (SimplifiedGridBot.updateZeroState st t).consec < 3) :
    (SimplifiedGridBot.reconcile_order_tracking tr [] t st rest).tracker =
      tr := by
  have hlen : 0 < tr.length := List.length_pos.mpr hne
  have h1 : (0 : ℕ) ≠ tr.length := hlen.ne
  have h4 : ¬ 3 ≤ (SimplifiedGridBot.updateZeroState st t).consec :=
    not_le.mpr hc
  simp [SimplifiedGridBot.reconcile_order_tracking, h1, hlen, h4]

/-- Witness for C4: with a fresh counter (`none`) at time 0, a zero reading
over a one-order tracker leaves the tracker untouched. -/
theorem c4_reconcile_zero_requires_persistence_witness :
    (SimplifiedGridBot.reconcile_order_tracking [("7", wTrackedOrder)] [] 0
        none none).tracker = [("7", wTrackedOrder)] :=
  c4_reconcile_zero_requires_persistence [("7", wTrackedOrder)] 0 none none
    (by decide) (by decide)

theorem reconcile_tracker_cases (tr : GridTracker) (realActive : List String)
    (t : ℚ) (st : Option SimplifiedGridBot.ZeroState)
    (rest : Option (List String)) :
    (SimplifiedGridBot.reconcile_order_tracking tr realActive t st
        rest).tracker = tr ∨
    (SimplifiedGridBot.reconcile_order_tracking tr realActive t st
        rest).tracker = [] ∨
    ∃ ids, (SimplifiedGridBot.reconcile_order_tracking tr realActive t st
        rest).tracker = eraseAll tr ids := by
  unfold SimplifiedGridBot.reconcile_order_tracking
  dsimp only []
  split_ifs
  all_goals
    first
      | exact Or.inl rfl
      | exact Or.inr (Or.inl rfl)
      | exact Or.inr (Or.inr ⟨_, rfl⟩)

theorem missingFold_keys_subset (ids : List String)
    (tp : GridTracker × Positions) :
    ∀ k, k ∈ keysOf (ids.foldl SimplifiedGridBot.missingStep tp).1 →
      k ∈ keysOf tp.1 := by
  induction ids generalizing tp with
  | nil => intro k hk; exact hk
  | cons i is ih =>
    intro k hk
    have hstep : ∀ k', k' ∈ keysOf (SimplifiedGridBot.missingStep tp i).1 →
        k' ∈ keysOf tp.1 := by
      intro k' hk'
      unfold SimplifiedGridBot.missingStep at hk'
      cases hl : lookupKey tp.1 i with
      | some o =>
        rw [hl] at hk'
        exact keysOf_eraseEntry_subset _ _ k' hk'
      | none =>
        rw [hl] at hk'
        exact hk'
    exact hstep k (ih (SimplifiedGridBot.missingStep tp i) k hk)

/-- Counterexample to C5 as stated: the REST sync pass adopts the unknown
exchange-active order `"1"` into a previously empty tracker, so the tracker
key set after the pass is not a subset of the key set before it. -/
theorem c5_counterexample_rest_sync_adopts_unknown_order :
    "1" ∈ keysOf (SimplifiedGridBot.sync_orders_from_api [] ⟨0, 0⟩
        (ApiResult.ok none [wActiveOrder])).tracker ∧
    ¬ "1" ∈ keysOf ([] : GridTracker) := by
  refine ⟨by decide, by decide⟩

/-- Claim C5 (amended): in the WebSocket reconciliation path — the
vanished-order phase of `handle_account_orders_update` and
`_reconcile_order_tracking` — exchange-reported orders that are not tracked
are never inserted: the tracker key set after a pass is a subset of the key
set before it.  The REST path `sync_orders_from_api` instead upserts every
exchange-active order, including ids this process never placed. -/
theorem c5_ws_path_never_inserts
    (tr : GridTracker) (pos : Positions) (ws : List ApiOrder)
    (realActive : List String) (t : ℚ)
    (st : Option SimplifiedGridBot.ZeroState)
    (rest : Option (List String)) :
    (∀ k, k ∈ keysOf (SimplifiedGridBot.processMissingOrders tr pos ws).1 →
      k ∈ keysOf tr) ∧
    (∀ k, k ∈ keysOf (SimplifiedGridBot.reconcile_order_tracking tr
        realActive t st rest).tracker → k ∈ keysOf tr) := by
  constructor
  · intro k hk
    exact missingFold_keys_subset (SimplifiedGridBot.missingIds tr ws)
      (tr, pos) k hk
  · intro k hk
    rcases reconcile_tracker_cases tr realActive t st rest with h | h | ⟨ids, h⟩
    · rw [h] at hk
      exact hk
    · rw [h] at hk
      simp [keysOf] at hk
    · rw [h] at hk
      exact keysOf_eraseAll_subset _ _ k hk

/-- An account-feed entry that still reports the tracked order `"7"`. -/
def wReportedSeven : ApiOrder :=
  { order_id := "7", status := "open", remaining_base_amount := 2,
    is_ask := false, price := 5 }

/-- Witness for C5: order `"7"`, still reported by the feed, survives the
vanished-order phase, and the theorem places it among the keys tracked
before the pass. -/
theorem c5_ws_path_never_inserts_witness :
    "7" ∈ keysOf ([("7", wTrackedOrder)] : GridTracker) :=
  (c5_ws_path_never_inserts [("7", wTrackedOrder)] ⟨0, 0⟩ [wReportedSeven]
    [] 0 none none).1 "7" (by decide)

/-- Counterexample to C6 as stated: an error response (`code = 403`, no
`orders` key) makes `SimplifiedGridBot.sync_orders_from_api` clear a
non-empty tracker instead of leaving it unchanged, because the grid path
never inspects the response code and treats the absent list as empty. -/
theorem c6_counterexample_error_response_clears_grid_tracker :
    ([("7", wTrackedOrder)] : GridTracker) ≠ [] ∧
    (403 : ℤ) ≠ 200 ∧
    (SimplifiedGridBot.sync_orders_from_api [("7", wTrackedOrder)] ⟨0, 0⟩
        (ApiResult.ok (some 403) [])).tracker = [] := by
  refine ⟨by decide, by decide, by decide⟩

/-- Claim C6 (amended): a raised fetch leaves both reconciliation paths'
trackers exactly as they were (reported only through logging / a `False`
return), and so does a non-dict response; a dict response carrying a truthy
non-200 `code` leaves the `OrderSyncManager` tracker unchanged as well — but
the grid REST path clears its tracker on such an error response. -/
theorem c6_fetch_failure_leaves_tracker_unchanged
    (tr : GridTracker) (pos : Positions)
    (omTr : OrderSyncManager.OMTracker) (now : ℚ) (c : ℤ)
    (orders : List ApiOrder) (hc0 : c ≠ 0) (hc200 : c ≠ 200) :
    SimplifiedGridBot.sync_orders_from_api tr pos ApiResult.raised =
      ⟨tr, []⟩ ∧
    SimplifiedGridBot.sync_orders_from_api tr pos ApiResult.nonDict =
      ⟨tr, []⟩ ∧
    OrderSyncManager.sync_orders_from_api omTr now ApiResult.raised =
      ⟨omTr, [], false⟩ ∧
    OrderSyncManager.sync_orders_from_api omTr now ApiResult.nonDict =
      ⟨omTr, [], false⟩ ∧
    OrderSyncManager.sync_orders_from_api omTr now
      (ApiResult.ok (some c) orders) = ⟨omTr, [], false⟩ := by
  refine ⟨rfl, rfl, rfl, rfl, ?_⟩
  simp only [OrderSyncManager.sync_orders_from_api]
  rw [if_pos ⟨hc0, hc200⟩]

/-- Witness for C6: a 403-coded response leaves a one-order
`OrderSyncManager` tracker untouched, and raised fetches leave both paths
untouched. -/
theorem c6_fetch_failure_leaves_tracker_unchanged_witness :
    SimplifiedGridBot.sync_orders_from_api [("7", wTrackedOrder)] ⟨0, 0⟩
      ApiResult.raised = ⟨[("7", wTrackedOrder)], []⟩ ∧
    SimplifiedGridBot.sync_orders_from_api [("7", wTrackedOrder)] ⟨0, 0⟩
      ApiResult.nonDict = ⟨[("7", wTrackedOrder)], []⟩ ∧
    OrderSyncManager.sync_orders_from_api [] 0 ApiResult.raised =
      ⟨[], [], false⟩ ∧
    OrderSyncManager.sync_orders_from_api [] 0 ApiResult.nonDict =
      ⟨[], [], false⟩ ∧
    OrderSyncManager.sync_orders_from_api [] 0
      (ApiResult.ok (some 403) [wActiveOrder]) = ⟨[], [], false⟩ :=
  c6_fetch_failure_leaves_tracker_unchanged [("7", wTrackedOrder)] ⟨0, 0⟩
    [] 0 403 [wActiveOrder] (by decide) (by decide)

/-- Claim C3: in hedge mode with a nonzero opposite-side position the
dynamic take-profit multiplier equals
`clamp(position / opposite / 100 + 1, 1 + min_profit, 1 + max_profit)`;
for every fixed `short_size > 0` it is monotonically non-decreasing in
`long_size`, and (whenever `min_profit ≤ max_profit`) it lies within
`[1 + min_profit, 1 + max_profit]`. -/
theorem c3_dynamic_take_profit_multiplier
    (position oppositePosition minProfit maxProfit long1 long2
      shortSize : ℚ)
    (hopp : oppositePosition ≠ 0) (hmm : minProfit ≤ maxProfit)
    (hshort : 0 < shortSize) (hmono : long1 ≤ long2) :
    dynamicTakeProfitMultiplier position oppositePosition minProfit
        maxProfit =
      clampQ (position / oppositePosition / 100 + 1) (1 + minProfit)
        (1 + maxProfit) ∧
    dynamicTakeProfitMultiplier long1 shortSize minProfit maxProfit ≤
      dynamicTakeProfitMultiplier long2 shortSize minProfit maxProfit ∧
    1 + minProfit ≤
      dynamicTakeProfitMultiplier position oppositePosition minProfit
        maxProfit ∧
    dynamicTakeProfitMultiplier position oppositePosition minProfit
      maxProfit ≤ 1 + maxProfit := by
  have hdef : dynamicTakeProfitMultiplier position oppositePosition
      minProfit maxProfit =
      clampQ (position / oppositePosition / 100 + 1) (1 + minProfit)
        (1 + maxProfit) := by
    unfold dynamicTakeProfitMultiplier
    rw [if_pos hopp]
  refine ⟨hdef, ?_, ?_, ?_⟩
  · unfold dynamicTakeProfitMultiplier
    rw [if_pos hshort.ne', if_pos hshort.ne']
    unfold clampQ
    refine max_le_max le_rfl (min_le_min le_rfl ?_)
    have h1 : long1 / shortSize ≤ long2 / shortSize :=
      (div_le_div_iff_of_pos_right hshort).mpr hmono
    have h2 : long1 / shortSize / 100 ≤ long2 / shortSize / 100 :=
      (div_le_div_iff_of_pos_right (by norm_num)).mpr h1
    linarith
  · rw [hdef]
    exact le_max_left _ _
  · rw [hdef]
    unfold clampQ
    exact max_le (by linarith) (min_le_left _ _)

/-- Witness for C3: at `position = 50`, `opposite = 10`,
`min_profit = 1%`, `max_profit = 4%`, the multiplier is the clamp value,
monotone between `long = 10` and `long = 20` at `short = 10`, and bounded. -/
theorem c3_dynamic_take_profit_multiplier_witness :
    dynamicTakeProfitMultiplier 50 10 (1 / 100) (4 / 100) =
      clampQ (50 / 10 / 100 + 1) (1 + 1 / 100) (1 + 4 / 100) ∧
    dynamicTakeProfitMultiplier 10 10 (1 / 100) (4 / 100) ≤
      dynamicTakeProfitMultiplier 20 10 (1 / 100) (4 / 100) ∧
    1 + 1 / 100 ≤ dynamicTakeProfitMultiplier 50 10 (1 / 100) (4 / 100) ∧
    dynamicTakeProfitMultiplier 50 10 (1 / 100) (4 / 100) ≤ 1 + 4 / 100 :=
  c3_dynamic_take_profit_multiplier 50 10 (1 / 100) (4 / 100) 10 20 10
    (by norm_num) (by norm_num) (by norm_num) (by norm_num)

/-- Claim C10: `cancel_all_orders` always empties the tracker and returns
the count of orders tracked at the start of the call, for every dry-run
flag and every outcome of the cancellation API call (raised included). -/
theorem c10_cancel_all_orders_clears_and_counts (dryRun : Bool)
    (tr : GridTracker) (outcome : SimplifiedGridBot.CancelOutcome) :
    SimplifiedGridBot.cancel_all_orders dryRun tr outcome =
      (tr.length, ([] : GridTracker)) := by
  unfold SimplifiedGridBot.cancel_all_orders
  cases dryRun <;> rfl

theorem applyFill_nonneg (s : Side) (pt : PosType) (q : ℚ)
    (pos : Positions) (hq : 0 ≤ q) (hl : 0 ≤ pos.long_position)
    (hs : 0 ≤ pos.short_position) :
    0 ≤ (SimplifiedGridBot.applyFill s pt q pos).long_position ∧
    0 ≤ (SimplifiedGridBot.applyFill s pt q pos).short_position := by
  cases s <;> cases pt <;>
    simp [SimplifiedGridBot.applyFill, hl, hs, le_max_left] <;>
    positivity

theorem update_completed_nonneg (o : GridOrder) (pos : Positions)
    (hl : 0 ≤ pos.long_position) (hs : 0 ≤ pos.short_position) :
    0 ≤ (SimplifiedGridBot.update_positions_from_completed_order o
        pos).long_position ∧
    0 ≤ (SimplifiedGridBot.update_positions_from_completed_order o
        pos).short_position := by
  unfold SimplifiedGridBot.update_positions_from_completed_order
  by_cases hq : 0 < o.quantity
  · rw [if_pos hq]
    exact applyFill_nonneg o.side o.position_type o.quantity pos hq.le hl hs
  · rw [if_neg hq]
    exact ⟨hl, hs⟩

theorem simulate_fills_nonneg (fills : List GridOrder) (pos : Positions)
    (hq : ∀ o ∈ fills, 0 ≤ o.quantity) (hl : 0 ≤ pos.long_position)
    (hs : 0 ≤ pos.short_position) :
    0 ≤ (SimplifiedGridBot.simulate_order_fills fills pos).long_position ∧
    0 ≤ (SimplifiedGridBot.simulate_order_fills fills pos).short_position := by
  induction fills generalizing pos with
  | nil => exact ⟨hl, hs⟩
  | cons o os ih =>
    have hstep := applyFill_nonneg o.side o.position_type o.quantity pos
      (hq o (List.mem_cons_self o os)) hl hs
    exact ih _ (fun o' h' => hq o' (List.mem_cons_of_mem o h')) hstep.1
      hstep.2

/-- Claim C9: `long_position` and `short_position` start at zero and remain
non-negative under every position-mutating operation — the WebSocket fill
handler, the completed-order fill assumption, and the dry-run fill
simulation — since increments add a non-negative fill quantity and every
decrement is clamped with `max(0, ·)`. -/
theorem c9_positions_nonnegative :
    0 ≤ initialPositions.long_position ∧
    0 ≤ initialPositions.short_position ∧
    (∀ (s : Side) (pt : PosType) (q : ℚ) (pos : Positions), 0 ≤ q →
      0 ≤ pos.long_position → 0 ≤ pos.short_position →
      0 ≤ (SimplifiedGridBot.handle_order_fill s pt q pos).long_position ∧
      0 ≤ (SimplifiedGridBot.handle_order_fill s pt q pos).short_position) ∧
    (∀ (o : GridOrder) (pos : Positions),
      0 ≤ pos.long_position → 0 ≤ pos.short_position →
      0 ≤ (SimplifiedGridBot.update_positions_from_completed_order o
          pos).long_position ∧
      0 ≤ (SimplifiedGridBot.update_positions_from_completed_order o
          pos).short_position) ∧
    (∀ (fills : List GridOrder) (pos : Positions),
      (∀ o ∈ fills, 0 ≤ o.quantity) →
      0 ≤ pos.long_position → 0 ≤ pos.short_position →
      0 ≤ (SimplifiedGridBot.simulate_order_fills fills
          pos).long_position ∧
      0 ≤ (SimplifiedGridBot.simulate_order_fills fills
          pos).short_position) := by
  refine ⟨le_refl 0, le_refl 0, ?_, ?_, ?_⟩
  · intro s pt q pos hq hl hs
    exact applyFill_nonneg s pt q pos hq hl hs
  · intro o pos hl hs
    exact update_completed_nonneg o pos hl hs
  · intro fills pos hq hl hs
    exact simulate_fills_nonneg fills pos hq hl hs

/-- Witness for C9: a buy/long fill of quantity 2 on positions
`(long, short) = (1, 1)` keeps both position sizes non-negative. -/
theorem c9_positions_nonnegative_witness :
    0 ≤ (SimplifiedGridBot.handle_order_fill Side.buy PosType.long 2
        ⟨1, 1⟩).long_position ∧
    0 ≤ (SimplifiedGridBot.handle_order_fill Side.buy PosType.long 2
        ⟨1, 1⟩).short_position :=
  c9_positions_nonnegative.2.2.1 Side.buy PosType.long 2 ⟨1, 1⟩
    (by norm_num) (by norm_num) (by norm_num)

theorem roundHalfEven_close (y : ℚ) : |(roundHalfEven y : ℚ) - y| ≤ 1 / 2 := by
  unfold roundHalfEven
  have h1 : ((⌊y⌋ : ℤ) : ℚ) ≤ y := Int.floor_le y
  have h2 : y < (⌊y⌋ : ℤ) + 1 := Int.lt_floor_add_one y
  by_cases hf : y - (⌊y⌋ : ℚ) < 1 / 2
  · rw [if_pos hf, abs_le]
    constructor <;> linarith
  · by_cases hg : 1 / 2 < y - (⌊y⌋ : ℚ)
    · rw [if_neg hf, if_pos hg]
      push_cast
      rw [abs_le]
      constructor <;> linarith
    · have hh : y - (⌊y⌋ : ℚ) = 1 / 2 := le_antisymm (not_lt.mp hg)
        (not_lt.mp hf)
      rw [if_neg hf, if_neg hg]
      by_cases hpar : (⌊y⌋ : ℤ) % 2 = 0
      · rw [if_pos hpar, abs_le]
        constructor <;> linarith
      · rw [if_neg hpar]
        push_cast
        rw [abs_le]
        constructor <;> linarith

theorem format_price_close (x : ℚ) (prec : ℕ) :
    |format_price x prec - x| ≤ 1 / (2 * 10 ^ prec) := by
  have h10 : (0 : ℚ) < 10 ^ prec := by positivity
  have key : format_price x prec - x =
      ((roundHalfEven (x * 10 ^ prec) : ℚ) - x * 10 ^ prec) / 10 ^ prec := by
    unfold format_price roundTo
    field_simp
    ring
  rw [key, abs_div, abs_of_pos h10]
  have hhalf : (1 : ℚ) / (2 * 10 ^ prec) = (1 / 2) / 10 ^ prec := by
    ring
  rw [hhalf, div_le_div_iff_of_pos_right h10]
  exact roundHalfEven_close (x * 10 ^ prec)

/-- Claim C8: with the long side flat and fewer than two tracked long/buy
orders, `adjust_grid_strategy` submits a buy entry priced at
`latest_price * (1 - grid_spacing)`; holding a long position with fewer than
two tracked long/sell orders it submits a sell exit at
`latest_price * (1 + grid_spacing)`; the price actually sent is
`format_price` of that value, which differs from it by at most half of one
price-precision unit. -/
theorem c8_grid_spacing_prices
    (tr : GridTracker) (longPosition latestPrice gridSpacing : ℚ)
    (prec : ℕ) :
    (longPosition = 0 →
      (tr.filter fun p =>
        p.2.position_type = PosType.long ∧ p.2.side = Side.buy).length < 2 →
      SimplifiedGridBot.longGridDecision tr longPosition latestPrice
          gridSpacing =
        SimplifiedGridBot.GridAction.place Side.buy
          (latestPrice * (1 - gridSpacing))) ∧
    (0 < longPosition →
      (tr.filter fun p =>
        p.2.position_type = PosType.long ∧ p.2.side = Side.sell).length < 2 →
      SimplifiedGridBot.longGridDecision tr longPosition latestPrice
          gridSpacing =
        SimplifiedGridBot.GridAction.place Side.sell
          (latestPrice * (1 + gridSpacing))) ∧
    (∀ x : ℚ, |format_price x prec - x| ≤ 1 / (2 * 10 ^ prec)) := by
  refine ⟨?_, ?_, fun x => format_price_close x prec⟩
  · intro h0 hcount
    unfold SimplifiedGridBot.longGridDecision
    rw [if_pos h0, if_pos hcount]
  · intro hpos hcount
    unfold SimplifiedGridBot.longGridDecision
    rw [if_neg hpos.ne', if_pos hcount]

/-- Witness for C8: with an empty tracker, flat long side, price 100 and
spacing 0.0003 the decided entry price is `100 * (1 - 0.0003)`; with a long
position of 1 the decided exit price is `100 * (1 + 0.0003)`; and the
formatted price at precision 2 stays within half a cent. -/
theorem c8_grid_spacing_prices_witness :
    SimplifiedGridBot.longGridDecision [] 0 100 (3 / 10000) =
      SimplifiedGridBot.GridAction.place Side.buy (100 * (1 - 3 / 10000)) ∧
    SimplifiedGridBot.longGridDecision [] 1 100 (3 / 10000) =
      SimplifiedGridBot.GridAction.place Side.sell (100 * (1 + 3 / 10000)) ∧
    |format_price (100 * (1 - 3 / 10000)) 2 - 100 * (1 - 3 / 10000)| ≤
      1 / (2 * 10 ^ 2) := by
  have h1 := c8_grid_spacing_prices [] 0 100 (3 / 10000) 2
  have h2 := c8_grid_spacing_prices [] 1 100 (3 / 10000) 2
  exact ⟨h1.1 rfl (by decide), h2.2.1 (by norm_num) (by decide),
    h1.2.2 (100 * (1 - 3 / 10000))⟩

/-- Claim C7: for a positive price, with the lot step configured and a
positive minimum quote amount, `calculate_order_quantity` returns the USD
amount divided by price rounded down to a step multiple whenever that value
already clears a step and the minimum notional; whenever the notional of the
step-floored quantity falls below the minimum quote amount the result is the
ceiling-to-step adjustment; the returned quantity always satisfies
`quantity * price ≥ min_quote_amount` and is always a positive integer
multiple of the step size. -/
theorem c7_order_quantity_sizing
    (orderAmount minQuoteAmount stepSize price : ℚ) (amountPrecision : ℕ)
    (hp : 0 < price) (hs : 0 < stepSize) (hm : 0 < minQuoteAmount) :
    (∃ k : ℤ, 1 ≤ k ∧
      SimplifiedGridBot.calculate_order_quantity orderAmount minQuoteAmount
        stepSize amountPrecision price = (k : ℚ) * stepSize) ∧
    minQuoteAmount ≤
      SimplifiedGridBot.calculate_order_quantity orderAmount minQuoteAmount
        stepSize amountPrecision price * price ∧
    (stepSize ≤ (⌊orderAmount / price / stepSize⌋ : ℚ) * stepSize →
      minQuoteAmount ≤
        (⌊orderAmount / price / stepSize⌋ : ℚ) * stepSize * price →
      SimplifiedGridBot.calculate_order_quantity orderAmount minQuoteAmount
        stepSize amountPrecision price =
        (⌊orderAmount / price / stepSize⌋ : ℚ) * stepSize) ∧
    ((if (⌊orderAmount / price / stepSize⌋ : ℚ) * stepSize < stepSize then
        stepSize
      else (⌊orderAmount / price / stepSize⌋ : ℚ) * stepSize) * price <
        minQuoteAmount →
      SimplifiedGridBot.calculate_order_quantity orderAmount minQuoteAmount
        stepSize amountPrecision price =
        (⌈minQuoteAmount / price / stepSize⌉ : ℚ) * stepSize) := by
  have hnp : ¬ price ≤ 0 := not_le.mpr hp
  set q0 : ℚ := (⌊orderAmount / price / stepSize⌋ : ℚ) * stepSize with hq0
  set q1 : ℚ := if q0 < stepSize then stepSize else q0 with hq1
  have hform : SimplifiedGridBot.calculate_order_quantity orderAmount
      minQuoteAmount stepSize amountPrecision price =
      if q1 * price < minQuoteAmount then
        (⌈minQuoteAmount / price / stepSize⌉ : ℚ) * stepSize
      else q1 := by
    unfold SimplifiedGridBot.calculate_order_quantity
    rw [if_neg hnp]
    simp only [if_pos hs]
  by_cases hv : q1 * price < minQuoteAmount
  · rw [hform, if_pos hv]
    have hposx : 0 < minQuoteAmount / price / stepSize := by positivity
    refine ⟨⟨⌈minQuoteAmount / price / stepSize⌉, ?_, rfl⟩, ?_, ?_, ?_⟩
    · have hcp : 0 < ⌈minQuoteAmount / price / stepSize⌉ :=
        Int.ceil_pos.mpr hposx
      omega
    · have hle : minQuoteAmount / price / stepSize ≤
          (⌈minQuoteAmount / price / stepSize⌉ : ℚ) := Int.le_ceil _
      have heq : minQuoteAmount / price / stepSize * stepSize * price =
          minQuoteAmount := by
        field_simp
        ring
      calc minQuoteAmount = minQuoteAmount / price / stepSize * stepSize *
            price := heq.symm
        _ ≤ (⌈minQuoteAmount / price / stepSize⌉ : ℚ) * stepSize * price :=
            mul_le_mul_of_nonneg_right
              (mul_le_mul_of_nonneg_right hle hs.le) hp.le
    · intro h3a h3b
      have hq1e : q1 = q0 := by
        rw [hq1]
        exact if_neg (not_lt.mpr h3a)
      rw [hq1e] at hv
      exact absurd h3b (not_le.mpr hv)
    · intro _
      rfl
  · rw [hform, if_neg hv]
    have hm_le : minQuoteAmount ≤ q1 * price := not_lt.mp hv
    refine ⟨?_, hm_le, ?_, ?_⟩
    · by_cases hq : q0 < stepSize
      · refine ⟨1, le_refl 1, ?_⟩
        rw [hq1, if_pos hq]
        push_cast
        ring
      · refine ⟨⌊orderAmount / price / stepSize⌋, ?_, by rw [hq1, if_neg hq]⟩
        have h1 : (1 : ℚ) * stepSize ≤
            (⌊orderAmount / price / stepSize⌋ : ℚ) * stepSize := by
          rw [one_mul, ← hq0]
          exact not_lt.mp hq
        have h2 : (1 : ℚ) ≤ (⌊orderAmount / price / stepSize⌋ : ℚ) :=
          (mul_le_mul_right hs).mp h1
        exact_mod_cast h2
    · intro h3a _
      rw [hq1]
      exact if_neg (not_lt.mpr h3a)
    · intro h4
      exact absurd h4 hv

/-- Witness for C7: with order amount $10, minimum quote $10, step 0.1 at
price 3 the returned quantity is 3.4, a positive multiple of the step whose
notional 10.2 clears the minimum; the round-down form applies at price 5
inside the theorem's third conjunct. -/
theorem c7_order_quantity_sizing_witness :
    (∃ k : ℤ, 1 ≤ k ∧
      SimplifiedGridBot.calculate_order_quantity 10 10 (1 / 10) 1 3 =
        (k : ℚ) * (1 / 10)) ∧
    (10 : ℚ) ≤
      SimplifiedGridBot.calculate_order_quantity 10 10 (1 / 10) 1 3 * 3 := by
  have h := c7_order_quantity_sizing 10 10 (1 / 10) 3 1 (by norm_num)
    (by norm_num) (by norm_num)
  exact ⟨h.1, h.2.1⟩

end Pylighter
